import Mathlib

/-!
Verification of the prompt-dock-bridge core against its implementation.

Each definition below is a shallow embedding of a function of the
JavaScript source (file and line references in the doc comments).
JavaScript machine integers appear as `Nat` (all quantities involved are
non-negative millisecond timestamps or counters that stay far below 2^53,
where JS arithmetic is exact); fallible code returns `Except`/`Option`;
mutation of `this` becomes explicit state passing.
-/

namespace PromptDock

/-- Model of a JSON value as manipulated by `src/security/crypto.js`.
Objects are association lists in insertion order (JavaScript objects
cannot hold duplicate keys, so key lists of values built by the program
are duplicate-free). -/
inductive Json where
  | null : Json
  | bool (b : Bool) : Json
  | num (n : Int) : Json
  | str (s : String) : Json
  | arr (items : List Json) : Json
  | obj (fields : List (String × Json)) : Json
deriving Repr, Inhabited

/-- Key order used by `Object.keys(value).sort()`: JavaScript sorts the
key strings lexicographically; on the keys the program uses this agrees
with the lexicographic order on Lean strings. -/
def keyLE (a b : String × Json) : Prop := a.1 ≤ b.1

instance : DecidableRel keyLE := fun a b => inferInstanceAs (Decidable (a.1 ≤ b.1))

instance : IsTotal (String × Json) keyLE := ⟨fun a b => le_total a.1 b.1⟩

instance : IsTrans (String × Json) keyLE := ⟨fun _ _ _ h h₂ => le_trans h h₂⟩

/-- `canonicalize` of `src/security/crypto.js` lines 122-136: arrays map
recursively, objects are rebuilt with their keys in sorted order and
canonicalized values, scalars are returned unchanged.  (The source reads
each value with `value[key]`; since object keys are unique, rebuilding
the pair list sorted by key is the same operation.) -/
def canonicalize : Json → Json
  | .null => .null
  | .bool b => .bool b
  | .num n => .num n
  | .str s => .str s
  | .arr items => .arr (items.attach.map fun x => canonicalize x.1)
  | .obj fields =>
      .obj (List.insertionSort keyLE (fields.attach.map fun p => (p.1.1, canonicalize p.1.2)))
termination_by v => sizeOf v
decreasing_by
  · have := List.sizeOf_lt_of_mem x.2
    simp only [Json.arr.sizeOf_spec]
    omega
  · obtain ⟨⟨k, v⟩, hmem⟩ := p
    have h := List.sizeOf_lt_of_mem hmem
    simp only [Json.obj.sizeOf_spec, Prod.mk.sizeOf_spec] at h ⊢
    omega

/-- Lower-case hexadecimal digit, as produced by JavaScript string
formatting of code units. -/
def hexDigit (n : Nat) : Char :=
  if n < 10 then Char.ofNat (48 + n) else Char.ofNat (87 + n)

/-- One character escaped as JSON.stringify escapes characters inside a
string literal. -/
def escapeJsonChar (c : Char) : String :=
  if c = '"' then "\\\""
  else if c = '\\' then "\\\\"
  else if c = '\x08' then "\\b"
  else if c = '\x0c' then "\\f"
  else if c = '\n' then "\\n"
  else if c = '\r' then "\\r"
  else if c = '\t' then "\\t"
  else if c.toNat < 0x20 then
    "\\u00" ++ String.mk [hexDigit (c.toNat / 16), hexDigit (c.toNat % 16)]
  else String.singleton c

/-- A whole string escaped for inclusion in a JSON string literal. -/
def escapeJsonString (s : String) : String :=
  String.join (s.toList.map escapeJsonChar)

mutual

/-- JSON.stringify on the modelled values: objects keep insertion order,
arrays keep element order, elements are comma-separated. -/
def stringify : Json → String
  | .null => "null"
  | .bool true => "true"
  | .bool false => "false"
  | .num n => toString n
  | .str s => "\"" ++ escapeJsonString s ++ "\""
  | .arr items => "[" ++ stringifyItems items ++ "]"
  | .obj fields => "\x7b" ++ stringifyFields fields ++ "\x7d"

/-- The comma-separated rendering of an array's elements. -/
def stringifyItems : List Json → String
  | [] => ""
  | [x] => stringify x
  | x :: xs => stringify x ++ "," ++ stringifyItems xs

/-- The comma-separated rendering of an object's fields. -/
def stringifyFields : List (String × Json) → String
  | [] => ""
  | [(k, v)] => "\"" ++ escapeJsonString k ++ "\":" ++ stringify v
  | (k, v) :: xs =>
      "\"" ++ escapeJsonString k ++ "\":" ++ stringify v ++ "," ++ stringifyFields xs

end

/-- `serializeForSignature` of `src/security/crypto.js` lines 107-120: the
canonical signed payload is the JSON text of
the object with fields type, timestamp, nonce (or null) and the
canonicalized data (or empty object), in that insertion order. -/
def serializeForSignature (type timestamp : String) (nonce : Option String)
    (data : Option Json) : String :=
  stringify (.obj
    [("type", .str type),
     ("timestamp", .str timestamp),
     ("nonce", match nonce with | some n => .str n | none => .null),
     ("data", canonicalize (data.getD (.obj [])))])

/-- `verifySignature` of `src/security/crypto.js` lines 79-93.  The call
into the Node crypto library (createVerify/write/end/verify) is carried
as the oracle `cryptoVerify`, which may fail in any way (malformed PEM
key, malformed base64 signature, ...).  The JavaScript guard
`if (!publicKeyToUse) throw` fires on `null`, `undefined` and on the
empty string, all falsy; the `try` block turns every oracle failure into
the result `false`. -/
def verifySignature (cryptoVerify : String → String → String → Except String Bool)
    (data signature : String) (publicKeyToUse : Option String) : Except String Bool :=
  if publicKeyToUse.getD "" = "" then
    .error "Public key not provided"
  else
    match cryptoVerify data signature (publicKeyToUse.getD "") with
    | .ok b => .ok b
    | .error _ => .ok false

/-- Lookup in a JavaScript `Map` keyed by α, modelled as an association
list in insertion order. -/
def mapGet {α : Type} (m : List (String × α)) (k : String) : Option α :=
  (m.find? (fun p => p.1 == k)).map (fun p => p.2)

/-- `Map.set`: replaces the binding when present, appends otherwise. -/
def mapSet {α : Type} (m : List (String × α)) (k : String) (v : α) : List (String × α) :=
  if (m.find? (fun p => p.1 == k)).isSome then
    m.map (fun p => if p.1 == k then (k, v) else p)
  else
    m ++ [(k, v)]

/-- `Map.delete`. -/
def mapDel {α : Type} (m : List (String × α)) (k : String) : List (String × α) :=
  m.filter (fun p => !(p.1 == k))

/-- The JavaScript idiom `x || d` on an optionally-configured number:
`undefined`, `null` and `0` all fall back to the default. -/
def orDefault (v : Option Nat) (d : Nat) : Nat :=
  match v with
  | some n => if n = 0 then d else n
  | none => d

/-- Per-session rate-limit state (`src/security/session.js` lines
324-332); `backoffUntil` is `null` or a timestamp. -/
structure RateLimitState where
  count : Nat
  resetTime : Nat
  penaltyLevel : Nat
  backoffUntil : Option Nat
deriving Repr, DecidableEq

/-- `createRateLimitState` (session.js lines 324-332). -/
def createRateLimitState (now : Nat) : RateLimitState :=
  ⟨0, now + 60000, 0, none⟩

/-- The admission decision returned by the session layer:
`\x7ballowed, reason?\x7d`. -/
structure AdmitResult where
  allowed : Bool
  reason : Option String
deriving Repr, DecidableEq

/-- The guard `rateLimit.backoffUntil && now < rateLimit.backoffUntil`
(session.js line 292); `null` and `0` are falsy. -/
def backoffActive (now : Nat) (rl : RateLimitState) : Bool :=
  match rl.backoffUntil with
  | some b => now < b
  | none => false

/-- `applyRateLimiting` of `src/security/session.js` lines 283-322,
as a pure state transformer on the session's rate-limit record.
`Math.ceil((b - now) / 1000)` on a positive difference is
`(b - now + 999) / 1000` in truncating arithmetic, and
`Math.max(penaltyLevel - 1, 0)` is truncating `Nat` subtraction. -/
def applyRateLimiting (maxCommandsPerMinute now : Nat) (rl : RateLimitState) :
    AdmitResult × RateLimitState :=
  if backoffActive now rl then
    let waitSeconds := (rl.backoffUntil.getD 0 - now + 999) / 1000
    (⟨false, some s!"Rate limit backoff in effect. Try again in {waitSeconds}s"⟩, rl)
  else
    let rl₁ := if now > rl.resetTime then
        { count := 0, resetTime := now + 60000, penaltyLevel := rl.penaltyLevel - 1,
          backoffUntil := rl.backoffUntil }
      else rl
    let rl₂ := { rl₁ with count := rl₁.count + 1 }
    if rl₂.count > maxCommandsPerMinute then
      let penaltyLevel := rl₂.penaltyLevel + 1
      let backoffSeconds := min 60 (2 ^ penaltyLevel)
      (⟨false, some s!"Rate limit exceeded. Cooling down for {backoffSeconds}s"⟩,
       { count := 0, resetTime := now + 60000, penaltyLevel := penaltyLevel,
         backoffUntil := some (now + backoffSeconds * 1000) })
    else
      (⟨true, none⟩, { rl₂ with backoffUntil := none })

/-- A session record (session.js lines 26-40).  Bearer tokens (JWTs
signed with the per-process 64-byte random secret) are modelled as
numbers drawn from the manager's issuance counter: distinct issuances
yield distinct tokens, and the manager's claim table records the
`sessionId` claim that `jwt.verify` reads back. -/
structure Session where
  id : String
  appName : String
  appUrl : String
  clientPublicKey : String
  createdAt : Nat
  expiresAt : Nat
  lastActivity : Nat
  commandCount : Nat
  executedCommands : List String
  token : Nat
  tokenIssuedAt : Nat
  latestToken : Nat
  rateLimit : RateLimitState
deriving Repr, DecidableEq

/-- The `security` block of the configuration consulted by the session
manager. -/
structure SecurityConfig where
  sessionTimeout : Option Nat
  maxCommandsPerMinute : Option Nat
deriving Repr, DecidableEq

/-- The mutable state of a `SessionManager` (session.js lines 10-19).
`tokenClaims` models which tokens were signed by this process's JWT
secret and the sessionId claim inside each; `nextToken` is the issuance
counter.  A command-history entry keeps (commandId, timestamp, type). -/
structure SessionManagerState where
  sessions : List (String × Session)
  commandHistory : List (String × List (String × Nat × String))
  tokenClaims : List (Nat × String)
  nextToken : Nat
  config : SecurityConfig
deriving Repr

/-- `generateJwt` (session.js lines 271-281): signs `\x7bsessionId,
appName, appUrl\x7d` with the process secret.  Only the sessionId claim
is ever read back, so the model records just that. -/
def generateJwt (st : SessionManagerState) (sessionId : String) :
    Nat × SessionManagerState :=
  (st.nextToken,
   { st with tokenClaims := (st.nextToken, sessionId) :: st.tokenClaims,
             nextToken := st.nextToken + 1 })

/-- `jwt.verify(token, this.jwtSecret)`: succeeds exactly on tokens this
manager issued, returning the sessionId claim. -/
def jwtVerify (st : SessionManagerState) (token : Nat) : Option String :=
  (st.tokenClaims.find? (fun p => p.1 == token)).map (fun p => p.2)

/-- `computeRefreshThreshold` (session.js lines 251-256):
`min(floor(sessionTimeout / 2), 15 minutes)`. -/
def computeRefreshThreshold (c : SecurityConfig) : Nat :=
  min (orDefault c.sessionTimeout 3600000 / 2) (15 * 60 * 1000)

/-- `getSession` (session.js lines 125-135): expired sessions are
deleted on access. -/
def getSession (st : SessionManagerState) (sessionId : String) (now : Nat) :
    Option Session × SessionManagerState :=
  match mapGet st.sessions sessionId with
  | none => (none, st)
  | some s =>
    if now > s.expiresAt then
      (none, { st with sessions := mapDel st.sessions sessionId })
    else
      (some s, st)

/-- `validateSession` (session.js lines 63-99).  The body of
`issueSessionToken` (lines 258-269) is inlined at its only call site
here, mirroring that the source mutates the very session object it
had in hand.  `session.tokenIssuedAt || session.createdAt` (line 87)
falls back on the falsy value `0`. -/
def validateSession (st : SessionManagerState) (token now : Nat) :
    Option Session × SessionManagerState :=
  match jwtVerify st token with
  | none => (none, st)
  | some sid =>
    match mapGet st.sessions sid with
    | none => (none, st)
    | some session =>
      if now > session.expiresAt then
        (none, { st with sessions := mapDel st.sessions sid })
      else if session.token ≠ token then
        (none, st)
      else
        let timeout := orDefault st.config.sessionTimeout 3600000
        let s₁ := { session with lastActivity := now, expiresAt := now + timeout }
        let st₁ := { st with sessions := mapSet st.sessions sid s₁ }
        let issuedAt := if s₁.tokenIssuedAt ≠ 0 then s₁.tokenIssuedAt else s₁.createdAt
        let rotated :=
          if now - issuedAt ≥ computeRefreshThreshold st.config then
            let (newToken, stI) := generateJwt st₁ sid
            let sI := { s₁ with token := newToken, tokenIssuedAt := now, latestToken := newToken }
            (sI, { stI with sessions := mapSet stI.sessions sid sI })
          else
            (s₁, st₁)
        let s₂ := { rotated.1 with latestToken := rotated.1.token }
        (some s₂, { rotated.2 with sessions := mapSet rotated.2.sessions sid s₂ })

/-- `getSessionByToken` (session.js lines 101-123). -/
def getSessionByToken (st : SessionManagerState) (token now : Nat) :
    Option Session × SessionManagerState :=
  match jwtVerify st token with
  | none => (none, st)
  | some sid =>
    match mapGet st.sessions sid with
    | none => (none, st)
    | some s =>
      if now > s.expiresAt then
        (none, { st with sessions := mapDel st.sessions sid })
      else if s.token ≠ token then
        (none, st)
      else
        (some s, st)

/-- The `type` field of the command data, as stored into the command
history (session.js line 204); absent fields read as `undefined`,
rendered here as the empty string. -/
def jsonTypeTag (v : Json) : String :=
  match v with
  | .obj fields =>
    match (fields.find? (fun p => p.1 == "type")).map (fun p => p.2) with
    | some (Json.str s) => s
    | _ => ""
  | _ => ""

/-- `validateCommand` of `src/security/session.js` lines 169-214.
`hashData` (crypto.js lines 95-97, SHA-256 hex) is carried as an
abstract function argument; the replay fingerprint input is
`commandId + JSON.stringify(commandData)` (line 181).  The
`replay_attack_detected` audit entry is written exactly on the branch
returning reason `Replay detected`. -/
def validateCommand (hashData : String → String) (st : SessionManagerState)
    (sessionId commandId : String) (commandData : Json) (now : Nat) :
    AdmitResult × SessionManagerState :=
  match getSession st sessionId now with
  | (none, st₁) => (⟨false, some "Session expired or revoked"⟩, st₁)
  | (some session, st₁) =>
    let rlRun := applyRateLimiting (orDefault st₁.config.maxCommandsPerMinute 100)
      now session.rateLimit
    let session₁ := { session with rateLimit := rlRun.2 }
    let st₂ := { st₁ with sessions := mapSet st₁.sessions sessionId session₁ }
    if rlRun.1.allowed = false then
      (rlRun.1, st₂)
    else
      let commandHash := hashData (commandId ++ stringify commandData)
      if session₁.executedCommands.contains commandHash then
        (⟨false, some "Replay detected"⟩, st₂)
      else
        let session₂ := { session₁ with
          executedCommands := session₁.executedCommands ++ [commandHash],
          commandCount := session₁.commandCount + 1 }
        let recent := (mapGet st₂.commandHistory sessionId).getD []
          ++ [(commandId, now, jsonTypeTag commandData)]
        let recent₂ := if recent.length > 100 then recent.tail else recent
        (⟨true, none⟩,
         { st₂ with sessions := mapSet st₂.sessions sessionId session₂,
                    commandHistory := mapSet st₂.commandHistory sessionId recent₂ })

/-- Well-formedness of a manager state: every stored session carries a
token below the issuance counter whose recorded claim points back at its
own key. `createSession` establishes this and every operation preserves
it. -/
def WFManager (st : SessionManagerState) : Prop :=
  ∀ p ∈ st.sessions,
    p.2.token < st.nextToken ∧ jwtVerify st p.2.token = some p.1 ∧ p.2.id = p.1

instance (st : SessionManagerState) : Decidable (WFManager st) :=
  inferInstanceAs (Decidable (∀ p ∈ st.sessions, _ ∧ _ ∧ _))

theorem canonicalize_null : canonicalize .null = .null := by simp [canonicalize]

theorem canonicalize_bool (b : Bool) : canonicalize (.bool b) = .bool b := by
  simp [canonicalize]

theorem canonicalize_num (n : Int) : canonicalize (.num n) = .num n := by
  simp [canonicalize]

theorem canonicalize_str (s : String) : canonicalize (.str s) = .str s := by
  simp [canonicalize]

theorem canonicalize_arr (items : List Json) :
    canonicalize (.arr items) = .arr (items.map canonicalize) := by
  rw [canonicalize]
  congr 1
  simp [List.map_attach]

theorem canonicalize_obj (fields : List (String × Json)) :
    canonicalize (.obj fields) =
      .obj (List.insertionSort keyLE (fields.map fun p => (p.1, canonicalize p.2))) := by
  rw [canonicalize]
  congr 1
  congr 1
  exact List.attach_map_coe fields (fun p => (p.1, canonicalize p.2))

/-- Two lists of key-value pairs that are permutations of one another,
both sorted by key, with duplicate-free keys, are equal. -/
theorem eq_of_perm_of_sorted_keys :
    ∀ {l₁ l₂ : List (String × Json)}, l₁.Perm l₂ → l₁.Sorted keyLE → l₂.Sorted keyLE →
      (l₁.map Prod.fst).Nodup → l₁ = l₂ := by
  intro l₁
  induction l₁ with
  | nil =>
    intro l₂ hp _ _ _
    exact List.Perm.nil_eq hp
  | cons a t ih =>
    intro l₂ hp hs₁ hs₂ hnd
    cases l₂ with
    | nil => exact absurd hp.symm (by simp)
    | cons b t₂ =>
      rw [List.sorted_cons] at hs₁ hs₂
      have hab : a = b := by
        have ha : a ∈ b :: t₂ := hp.mem_iff.mp (List.mem_cons_self a t)
        have hb : b ∈ a :: t := hp.symm.mem_iff.mp (List.mem_cons_self b t₂)
        rcases List.mem_cons.mp ha with h₁ | h₁
        · exact h₁
        rcases List.mem_cons.mp hb with h₂ | h₂
        · exact h₂.symm
        have hle₁ : a.1 ≤ b.1 := hs₁.1 b h₂
        have hle₂ : b.1 ≤ a.1 := hs₂.1 a h₁
        have hkey : a.1 = b.1 := le_antisymm hle₁ hle₂
        exfalso
        have : a.1 ∈ t.map Prod.fst := by
          rw [hkey]
          exact List.mem_map_of_mem Prod.fst h₂
        exact (List.nodup_cons.mp hnd).1 this
      subst hab
      have htp : t.Perm t₂ := hp.cons_inv
      rw [ih htp hs₁.2 hs₂.2 (List.nodup_cons.mp hnd).2]

/-- canonicalize is idempotent. -/
theorem canonicalize_idem : ∀ v : Json, canonicalize (canonicalize v) = canonicalize v := by
  intro v
  induction v using canonicalize.induct with
  | case1 => simp [canonicalize_null]
  | case2 b => simp [canonicalize_bool]
  | case3 n => simp [canonicalize_num]
  | case4 s => simp [canonicalize_str]
  | case5 items ih =>
    rw [canonicalize_arr, canonicalize_arr, List.map_map]
    congr 1
    apply List.map_congr_left
    intro x hx
    exact ih ⟨x, hx⟩
  | case6 fields ih =>
    rw [canonicalize_obj, canonicalize_obj]
    congr 1
    have hmap : (List.insertionSort keyLE (fields.map fun p => (p.1, canonicalize p.2))).map
        (fun p => (p.1, canonicalize p.2)) =
        List.insertionSort keyLE (fields.map fun p => (p.1, canonicalize p.2)) := by
      have hid : ∀ q ∈ List.insertionSort keyLE (fields.map fun p => (p.1, canonicalize p.2)),
          (q.1, canonicalize q.2) = q := by
        intro q hq
        have hq₂ : q ∈ fields.map fun p => (p.1, canonicalize p.2) :=
          (List.mem_insertionSort keyLE).mp hq
        obtain ⟨p, hp, hpq⟩ := List.mem_map.mp hq₂
        have := ih ⟨p, hp⟩
        subst hpq
        simp only [this]
      calc (List.insertionSort keyLE (fields.map fun p => (p.1, canonicalize p.2))).map
            (fun p => (p.1, canonicalize p.2))
          = (List.insertionSort keyLE (fields.map fun p => (p.1, canonicalize p.2))).map id := by
            apply List.map_congr_left
            intro q hq
            exact hid q hq
        _ = _ := List.map_id _
    rw [hmap]
    exact (List.sorted_insertionSort keyLE _).insertionSort_eq

/-- canonicalize of an object does not depend on the insertion order of
its (duplicate-free) fields. -/
theorem canonicalize_obj_perm (l₁ l₂ : List (String × Json)) (hperm : l₁.Perm l₂)
    (hnd : (l₁.map Prod.fst).Nodup) : canonicalize (.obj l₁) = canonicalize (.obj l₂) := by
  rw [canonicalize_obj, canonicalize_obj]
  congr 1
  have hmap : (l₁.map fun p => (p.1, canonicalize p.2)).Perm
      (l₂.map fun p => (p.1, canonicalize p.2)) := hperm.map _
  have hkeys : ((l₁.map fun p => (p.1, canonicalize p.2)).map Prod.fst).Nodup := by
    rw [List.map_map]
    exact hnd
  apply eq_of_perm_of_sorted_keys
  · exact ((List.perm_insertionSort keyLE _).trans hmap).trans
      (List.perm_insertionSort keyLE _).symm
  · exact List.sorted_insertionSort keyLE _
  · exact List.sorted_insertionSort keyLE _
  · have := (List.perm_insertionSort keyLE
      (l₁.map fun p => (p.1, canonicalize p.2))).map Prod.fst
    exact this.nodup_iff.mpr hkeys

/-- A stored pairing code (`src/security/pairing.js` lines 18-26). -/
structure PairingData where
  code : String
  appName : String
  appUrl : String
  bridgePublicKey : String
  createdAt : Nat
  expiresAt : Nat
  used : Bool
deriving Repr, DecidableEq

/-- What `validatePairingCode` returns on success (pairing.js lines
75-80). -/
structure RedemptionData where
  appName : String
  appUrl : String
  clientPublicKey : String
  bridgePublicKey : String
deriving Repr, DecidableEq

/-- Pairing codes live 5 minutes (pairing.js line 6). -/
def EXPIRY_TIME : Nat := 5 * 60 * 1000

/-- `cleanupExpiredCodes` (pairing.js lines 83-91): drops every entry
whose expiry has passed. -/
def cleanupExpiredCodes (m : List (String × PairingData)) (now : Nat) :
    List (String × PairingData) :=
  m.filter (fun p => !(decide (now > p.2.expiresAt)))

/-- `generatePairingCode` (pairing.js lines 8-40); the random code is an
argument.  The `setTimeout` deletion duplicates what
`cleanupExpiredCodes` does on the next call and is not modelled. -/
def generatePairingCode (m : List (String × PairingData))
    (code appName appUrl bridgePublicKey : String) (now : Nat) :
    PairingData × List (String × PairingData) :=
  let m₁ := cleanupExpiredCodes m now
  let pairingData : PairingData :=
    { code := code, appName := appName, appUrl := appUrl,
      bridgePublicKey := bridgePublicKey, createdAt := now,
      expiresAt := now + EXPIRY_TIME, used := false }
  (pairingData, mapSet m₁ code pairingData)

/-- `validatePairingCode` of `src/security/pairing.js` lines 42-81.  The
client public key argument models the JS falsy check `!clientPublicKey`
with the empty string; every failure path returns `none` (the HTTP layer
then answers the caller with the uniform message
`Invalid or expired pairing code`).  Setting `used := true` before the
deletion has no observable effect since the entry is removed. -/
def validatePairingCode (m : List (String × PairingData))
    (code clientPublicKey : String) (now : Nat) :
    Option RedemptionData × List (String × PairingData) :=
  let m₁ := cleanupExpiredCodes m now
  match mapGet m₁ code with
  | none => (none, m₁)
  | some pairingData =>
    if pairingData.used then
      (none, mapDel m₁ code)
    else if now > pairingData.expiresAt then
      (none, mapDel m₁ code)
    else if clientPublicKey = "" then
      (none, m₁)
    else
      (some { appName := pairingData.appName, appUrl := pairingData.appUrl,
              clientPublicKey := clientPublicKey,
              bridgePublicKey := pairingData.bridgePublicKey },
       mapDel m₁ code)

/-- A plan artifact (`src/execution/planner.js`, the object built in
`createPlan`); `sessionId` is `options.sessionId || null`.  Fields that
never influence control flow (gitStatus, metadata, options) are kept as
opaque strings or omitted payload. -/
structure Plan where
  id : String
  sessionId : Option String
  prompt : String
  workdir : String
  agentName : String
  planText : String
  modifiedFiles : List String
  createdAt : Nat
  approved : Bool
  approvedAt : Option Nat
  executed : Bool
  executedAt : Option Nat
  rejected : Bool
  backupBranch : Option String
deriving Repr, DecidableEq

/-- `ExecutionPlanner.getPlan` (planner lines 110-112). -/
def getPlan (plans : List (String × Plan)) (planId : String) : Option Plan :=
  mapGet plans planId

/-- `ExecutionPlanner.approvePlan` (planner lines 114-130): rejects only
when the plan is missing or already executed; no session argument is
taken and no ownership is consulted. -/
def approvePlan (plans : List (String × Plan)) (planId : String) (now : Nat) :
    Except String (Plan × List (String × Plan)) :=
  match mapGet plans planId with
  | none => .error "Plan not found"
  | some plan =>
    if plan.executed then
      .error "Plan already executed"
    else
      let plan₂ := { plan with approved := true, approvedAt := some now }
      .ok (plan₂, mapSet plans planId plan₂)

/-- `handleApprovePlan` (protocol handler lines 499-513): destructures
`planId` from the message data and calls `planner.approvePlan(planId)`;
the caller's session (`clientInfo.session`) is never consulted. -/
def handleApprovePlan (callerSessionId : String) (plans : List (String × Plan))
    (planId : String) (now : Nat) : Except String (Plan × List (String × Plan)) :=
  approvePlan plans planId now

/-- `ExecutionPlanner.rejectPlan` (planner lines 132-145): marks the
plan rejected and deletes it from the registry; the net effect on the
registry is removal. -/
def rejectPlan (plans : List (String × Plan)) (planId : String) :
    Except String (List (String × Plan)) :=
  match mapGet plans planId with
  | none => .error "Plan not found"
  | some _ => .ok (mapDel plans planId)

/-- Execution status strings of `src/execution/executor.js`. -/
inductive ExecStatus where
  | starting
  | initializing
  | executing
  | completed
  | failed
  | aborted
deriving Repr, DecidableEq

/-- An execution record (executor.js lines 41-52, reduced to the fields
the control flow reads). -/
structure Execution where
  id : String
  planId : String
  sessionId : String
  status : ExecStatus
  progress : Nat
deriving Repr, DecidableEq

/-- The guard of `ExecutionOrchestrator.executePlan` (executor.js lines
18-37), in source order: not found, not approved, already executed,
ownership (checked only when the plan records an owning session). -/
def executePlanCheck (plans : List (String × Plan)) (planId sessionId : String) :
    Except String Plan :=
  match mapGet plans planId with
  | none => .error "Plan not found"
  | some plan =>
    if plan.approved = false then
      .error "Plan not approved"
    else if plan.executed then
      .error "Plan already executed"
    else if (match plan.sessionId with
             | some owner => decide (owner ≠ sessionId)
             | none => false) then
      .error "Plan does not belong to this session"
    else
      .ok plan

/-- The plan object as created through `handleExecutePrompt` (protocol
handler lines 419-450): the handler passes
`sessionId: clientInfo.session.id`, and `execute-prompt` requires an
authenticated session, so handler-created plans always record an owning
session. -/
def newPlan (planId sid prompt workdir agentName planText : String) (now : Nat) : Plan :=
  { id := planId, sessionId := some sid, prompt := prompt, workdir := workdir,
    agentName := agentName, planText := planText, modifiedFiles := [],
    createdAt := now, approved := false, approvedAt := none,
    executed := false, executedAt := none, rejected := false, backupBranch := none }

/-- `executePlan` as a state operation: on a failed guard it throws and
touches nothing; on success it creates the execution record (status
`starting`) before `runExecution` is driven. -/
def executePlanOp (plans : List (String × Plan))
    (executions : List (String × Execution)) (planId sessionId execId : String) :
    Except String (Execution × List (String × Execution)) :=
  match executePlanCheck plans planId sessionId with
  | .error e => .error e
  | .ok _ =>
    let execution : Execution :=
      { id := execId, planId := planId, sessionId := sessionId,
        status := .starting, progress := 0 }
    .ok (execution, mapSet executions execId execution)

/-- The joint state of the plan registry and the orchestrator, with two
ghost histories: `approvalLog` records (planId, owner) at each approval,
`executedLog` records (planId, sessionId) when a plan is marked
executed at the end of a successful run. -/
structure BridgeState where
  plans : List (String × Plan)
  executions : List (String × Execution)
  approvalLog : List (String × Option String)
  executedLog : List (String × String)
deriving Repr

/-- One step of the plan/approve/execute machine, each constructor
mirroring the corresponding source operation. -/
inductive BridgeStep : BridgeState → BridgeState → Prop where
  | createPlan (s : BridgeState)
      (planId sid prompt workdir agentName planText : String) (now : Nat)
      (hfresh : mapGet s.plans planId = none) :
      BridgeStep s
        ⟨mapSet s.plans planId (newPlan planId sid prompt workdir agentName planText now),
         s.executions, s.approvalLog, s.executedLog⟩
  | approve (s : BridgeState) (planId : String) (now : Nat) (p : Plan)
      (plans₂ : List (String × Plan))
      (h : approvePlan s.plans planId now = .ok (p, plans₂)) :
      BridgeStep s
        ⟨plans₂, s.executions, (planId, p.sessionId) :: s.approvalLog, s.executedLog⟩
  | execute (s : BridgeState) (planId sessionId execId : String) (p : Plan)
      (h : executePlanCheck s.plans planId sessionId = .ok p) :
      BridgeStep s
        ⟨s.plans,
         mapSet s.executions execId ⟨execId, planId, sessionId, ExecStatus.starting, 0⟩,
         s.approvalLog, s.executedLog⟩
  | advance (s : BridgeState) (execId : String) (e : Execution) (st : ExecStatus)
      (he : mapGet s.executions execId = some e)
      (hst : st = ExecStatus.initializing ∨ st = ExecStatus.executing) :
      BridgeStep s
        ⟨s.plans, mapSet s.executions execId ⟨e.id, e.planId, e.sessionId, st, e.progress⟩,
         s.approvalLog, s.executedLog⟩
  | complete (s : BridgeState) (execId : String) (e : Execution)
      (he : mapGet s.executions execId = some e) :
      BridgeStep s
        ⟨mapDel s.plans e.planId,
         mapSet s.executions execId ⟨e.id, e.planId, e.sessionId, ExecStatus.completed, 100⟩,
         s.approvalLog, (e.planId, e.sessionId) :: s.executedLog⟩
  | fail (s : BridgeState) (execId : String) (e : Execution)
      (he : mapGet s.executions execId = some e) :
      BridgeStep s
        ⟨s.plans, mapSet s.executions execId ⟨e.id, e.planId, e.sessionId, ExecStatus.failed, e.progress⟩,
         s.approvalLog, s.executedLog⟩
  | reject (s : BridgeState) (planId : String) (p : Plan)
      (h : mapGet s.plans planId = some p) :
      BridgeStep s ⟨mapDel s.plans planId, s.executions, s.approvalLog, s.executedLog⟩

/-- States reachable from the empty registries. -/
inductive BridgeReachable : BridgeState → Prop where
  | init : BridgeReachable ⟨[], [], [], []⟩
  | step {s s₂ : BridgeState} (hr : BridgeReachable s) (hs : BridgeStep s s₂) :
      BridgeReachable s₂

/-- The invariant tying executions to earlier approvals: every plan in
the registry has an owner and, if approved, its approval is logged;
every execution's plan was approved by its own session; every executed
plan was approved first. -/
def BridgeInv (s : BridgeState) : Prop :=
  (∀ q ∈ s.plans, (∃ sid, q.2.sessionId = some sid) ∧
     (q.2.approved = true → (q.1, q.2.sessionId) ∈ s.approvalLog)) ∧
  (∀ q ∈ s.executions, (q.2.planId, some q.2.sessionId) ∈ s.approvalLog) ∧
  (∀ q ∈ s.executedLog, (q.1, some q.2) ∈ s.approvalLog)

/-- The final state of the concrete plan→approve→execute run used as the
C2 witness. -/
def c2Plan₀ : Plan := newPlan "p1" "s1" "P" "/w" "agent" "T" 0

/-- The demo plan after approval at time 5. -/
def c2Plan₁ : Plan := { c2Plan₀ with approved := true, approvedAt := some 5 }

/-- The demo execution created from the approved plan. -/
def c2Exec : Execution :=
  { id := "e1", planId := "p1", sessionId := "s1", status := .starting, progress := 0 }

/-- The state after create, approve and execute. -/
def c2StateFinal : BridgeState :=
  ⟨[("p1", c2Plan₁)], [("e1", c2Exec)], [("p1", some "s1")], []⟩

/-- A plan owned by session-A, used to exhibit the missing ownership
check at approval. -/
def ownershipDemoPlan : Plan := newPlan "p1" "session-A" "P" "/w" "agent" "T" 0

/-- The observable scheduling state of one session's execution queue
(`ExecutionOrchestrator.enqueueExecution`, executor.js lines 333-366).
`queue` is the session's array of entries (its head is the entry whose
`run()` is active once started); `started` lists entries whose `run()`
has been invoked, in invocation order; `finished` lists entries whose
task has settled, in settlement order; `submitted` is the ghost list of
all enqueued entries in submission order. -/
structure QueueState where
  queue : List Nat
  started : List Nat
  finished : List Nat
  submitted : List Nat
deriving Repr, DecidableEq

/-- The queue discipline of enqueueExecution: `enqueue` pushes an entry
and invokes `run()` immediately when the queue was empty (push then
`queue.length === 1`); `settle` is the `finally` block of the head
entry: `queue.shift()` then `queue[0].run()` when a next entry exists.
Entry identifiers are fresh (each promise entry is a new object). -/
inductive QStep : QueueState → QueueState → Prop where
  | enqueue (s : QueueState) (i : Nat) (hfresh : i ∉ s.submitted) :
      QStep s ⟨s.queue ++ [i],
               if s.queue = [] then s.started ++ [i] else s.started,
               s.finished, s.submitted ++ [i]⟩
  | settle (s : QueueState) (i : Nat) (rest : List Nat) (hq : s.queue = i :: rest) :
      QStep s ⟨rest,
               (match rest with | [] => s.started | j :: _ => s.started ++ [j]),
               s.finished ++ [i], s.submitted⟩

/-- Queue states reachable from the empty queue. -/
inductive QReachable : QueueState → Prop where
  | init : QReachable ⟨[], [], [], []⟩
  | step {s s₂ : QueueState} (hr : QReachable s) (hs : QStep s s₂) : QReachable s₂

/-- The serialisation invariant of one session's queue. -/
def QueueInv (s : QueueState) : Prop :=
  s.started = s.finished ++ (match s.queue with | [] => [] | i :: _ => [i]) ∧
  s.submitted = s.finished ++ s.queue ∧
  s.submitted.Nodup

/-- The wire message types (`src/protocols/messages.js`). -/
inductive MsgType where
  | pair
  | authenticate
  | initSession
  | startAgentSession
  | createWorktree
  | gitStatus
  | gitCommand
  | executePrompt
  | agentInteraction
  | agentFeedback
  | approvePlanMsg
  | rejectPlanMsg
  | abortExecution
  | generatePR
  | cleanupWorktree
  | getLogs
  | healthCheck
  | emergencyKill
deriving Repr, DecidableEq

/-- The wire tag of each message type. -/
def typeTag : MsgType → String
  | .pair => "pair"
  | .authenticate => "authenticate"
  | .initSession => "init-session"
  | .startAgentSession => "start-agent-session"
  | .createWorktree => "create-worktree"
  | .gitStatus => "git-status"
  | .gitCommand => "git-command"
  | .executePrompt => "execute-prompt"
  | .agentInteraction => "agent-interaction"
  | .agentFeedback => "agent-feedback"
  | .approvePlanMsg => "approve-plan"
  | .rejectPlanMsg => "reject-plan"
  | .abortExecution => "abort-execution"
  | .generatePR => "generate-pr"
  | .cleanupWorktree => "cleanup-worktree"
  | .getLogs => "get-logs"
  | .healthCheck => "health-check"
  | .emergencyKill => "emergency-kill"

/-- An inbound envelope, reduced to the fields the signature gate reads.
`dataClientPublicKey` and `dataToken` mirror `message.data?.clientPublicKey`
and `message.data?.token`; the token is a bearer token in the session
model's representation. -/
structure WsMessage where
  type : MsgType
  signature : Option String
  timestamp : String
  nonce : Option String
  data : Option Json
  dataClientPublicKey : Option String
  dataToken : Option Nat

/-- What the gate reads out of a resolved session: the client's bound
public key. -/
structure ClientSessionView where
  clientPublicKey : String
deriving Repr, DecidableEq

/-- The result shape `\x7bvalid, error?\x7d` of verifyClientSignature. -/
structure SigCheckResult where
  valid : Bool
  error : Option String
deriving Repr, DecidableEq

/-- The tail of `verifyClientSignature` after key selection
(websocket.js lines 233-249): the no-signature shortcut for
health-check, the missing-key check, then the crypto verification over
the canonical payload. -/
def finishSignatureCheck (verify : String → String → String → Bool)
    (msg : WsMessage) (publicKey : String) : SigCheckResult :=
  if msg.type = MsgType.healthCheck then
    ⟨true, none⟩
  else if publicKey = "" then
    ⟨false, some "Missing public key for signature verification"⟩
  else if verify (serializeForSignature (typeTag msg.type) msg.timestamp msg.nonce msg.data)
      (msg.signature.getD "") publicKey then
    ⟨true, none⟩
  else
    ⟨false, some "Invalid signature"⟩

/-- `verifyClientSignature` of `src/server/websocket.js` lines 196-254.
`verify` is the crypto oracle (verifySignature with the selected key);
`resolveToken` models `sessionManager.getSessionByToken`;
`clientSession` is `clientInfo.session`.  Note the order: the
`Not authenticated` check of the else branch runs BEFORE the
`!requiresSignature` shortcut. -/
def verifyClientSignature (verify : String → String → String → Bool)
    (resolveToken : Nat → Option ClientSessionView)
    (clientSession : Option ClientSessionView) (msg : WsMessage) : SigCheckResult :=
  if msg.signature = none ∧ msg.type ≠ MsgType.healthCheck then
    ⟨false, some "Missing signature"⟩
  else if msg.type = MsgType.pair then
    (if msg.dataClientPublicKey.getD "" = "" then
      ⟨false, some "Client public key required for pairing"⟩
    else
      finishSignatureCheck verify msg (msg.dataClientPublicKey.getD ""))
  else if msg.type = MsgType.authenticate then
    (match msg.dataToken with
     | none => ⟨false, some "Authentication token missing"⟩
     | some token =>
       match resolveToken token with
       | none => ⟨false, some "Invalid or expired session token"⟩
       | some sess => finishSignatureCheck verify msg sess.clientPublicKey)
  else
    (match clientSession with
     | none => ⟨false, some "Not authenticated"⟩
     | some sess => finishSignatureCheck verify msg sess.clientPublicKey)

/-- `requiresSession` of the message handler (protocol handler lines
30-34): every type except pair, authenticate and health-check. -/
def requiresSession (t : MsgType) : Bool :=
  !([MsgType.pair, MsgType.authenticate, MsgType.healthCheck].contains t)

/-- Outcome of the authentication gates for one inbound message. -/
inductive GateOutcome where
  | rejected (error : String)
  | dispatched
deriving Repr, DecidableEq

/-- The authentication pipeline for one message: the connection-level
signature gate (websocket.js lines 87-102), then the handler's session
requirement (handler lines 30-47).  `dispatched` means the message
reaches admission and its type handler (envelope validation, freshness,
rate limiting and replay are modelled separately). -/
def wsProcessMessage (verify : String → String → String → Bool)
    (resolveToken : Nat → Option ClientSessionView)
    (clientSession : Option ClientSessionView) (msg : WsMessage) : GateOutcome :=
  let sig := verifyClientSignature verify resolveToken clientSession msg
  if sig.valid = false then
    .rejected (sig.error.getD "Signature verification failed")
  else if requiresSession msg.type ∧ clientSession = none then
    .rejected "Not authenticated"
  else
    .dispatched

/-- A concrete unused pairing code for the C7 witness. -/
def pairingDemoCode : PairingData :=
  { code := "A1B2-C3D4-E5F6", appName := "X", appUrl := "https://x.test",
    bridgePublicKey := "bpk", createdAt := 0, expiresAt := 300000, used := false }

/-- A concrete session used to exercise token rotation: its token is 0,
issued at time 1000, with a one-hour session timeout (so the refresh
threshold is 15 minutes = 900000 ms). -/
def rotationDemoSession : Session :=
  { id := "sid1", appName := "app", appUrl := "https://app.test",
    clientPublicKey := "pk", createdAt := 1000, expiresAt := 10000000,
    lastActivity := 1000, commandCount := 0, executedCommands := [],
    token := 0, tokenIssuedAt := 1000, latestToken := 0,
    rateLimit := createRateLimitState 1000 }

/-- A concrete manager state holding only `rotationDemoSession`. -/
def rotationDemoManager : SessionManagerState :=
  { sessions := [("sid1", rotationDemoSession)]
    commandHistory := []
    tokenClaims := [(0, "sid1")]
    nextToken := 1
    config := { sessionTimeout := some 3600000, maxCommandsPerMinute := none } }

/-- A concrete fresh session used to exercise the replay cache. -/
def replayDemoSession : Session :=
  { id := "s1", appName := "app", appUrl := "https://app.test",
    clientPublicKey := "pk", createdAt := 0, expiresAt := 1000000,
    lastActivity := 0, commandCount := 0, executedCommands := [],
    token := 0, tokenIssuedAt := 0, latestToken := 0,
    rateLimit := createRateLimitState 0 }

/-- A concrete manager state holding only `replayDemoSession`. -/
def replayDemoManager : SessionManagerState :=
  { sessions := [("s1", replayDemoSession)],
    commandHistory := [], tokenClaims := [(0, "s1")], nextToken := 1,
    config := { sessionTimeout := some 3600000, maxCommandsPerMinute := none } }

theorem mapGet_cons {α : Type} (a : String × α) (t : List (String × α)) (k : String) :
    mapGet (a :: t) k = if (a.1 == k) = true then some a.2 else mapGet t k := by
  unfold mapGet
  rw [List.find?_cons]
  by_cases h : (a.1 == k) = true
  · simp [h]
  · simp [h]

theorem mapSet_cons_eq {α : Type} (a : String × α) (t : List (String × α)) (k : String)
    (v : α) (ha : (a.1 == k) = true) :
    mapSet (a :: t) k v = (k, v) :: t.map (fun p => if p.1 == k then (k, v) else p) := by
  unfold mapSet
  rw [List.find?_cons]
  simp only [ha, Option.isSome_some, if_pos, List.map_cons]

theorem mapSet_cons_ne {α : Type} (a : String × α) (t : List (String × α)) (k : String)
    (v : α) (ha : (a.1 == k) = false) : mapSet (a :: t) k v = a :: mapSet t k v := by
  unfold mapSet
  rw [List.find?_cons]
  simp only [ha]
  by_cases ht : (List.find? (fun p => p.1 == k) t).isSome
  · rw [if_pos ht, if_pos ht, List.map_cons, if_neg (by simp [ha])]
  · rw [if_neg ht, if_neg ht, List.cons_append]

theorem mapGet_mapSet_self {α : Type} (m : List (String × α)) (k : String) (v : α) :
    mapGet (mapSet m k v) k = some v := by
  induction m with
  | nil => simp [mapGet, mapSet]
  | cons a t ih =>
    by_cases ha : (a.1 == k) = true
    · rw [mapSet_cons_eq a t k v ha, mapGet_cons]
      simp
    · have ha₂ : (a.1 == k) = false := by simpa using ha
      rw [mapSet_cons_ne a t k v ha₂, mapGet_cons]
      simp only [ha₂, Bool.false_eq_true, if_neg]
      exact ih

theorem mapGet_map_upd_ne {α : Type} (t : List (String × α)) (k kt : String) (v : α)
    (hne : (k == kt) = false) :
    mapGet (t.map (fun p => if p.1 == k then (k, v) else p)) kt = mapGet t kt := by
  induction t with
  | nil => rfl
  | cons q t ih =>
    by_cases hq : (q.1 == k) = true
    · have hq₁ : q.1 = k := by simpa using hq
      rw [List.map_cons, if_pos hq, mapGet_cons, mapGet_cons]
      have hqk : (q.1 == kt) = false := by rw [hq₁]; exact hne
      simp only [hne, hqk, Bool.false_eq_true, if_neg]
      exact ih
    · have hq₂ : (q.1 == k) = false := by simpa using hq
      rw [List.map_cons, if_neg (by simp [hq₂]), mapGet_cons, mapGet_cons]
      by_cases hqt : (q.1 == kt) = true
      · simp only [hqt, if_pos]
      · have hqt₂ : (q.1 == kt) = false := by simpa using hqt
        simp only [hqt₂, Bool.false_eq_true, if_neg]
        exact ih

theorem mapGet_mapSet_ne {α : Type} (m : List (String × α)) (k kt : String) (v : α)
    (hne : (k == kt) = false) : mapGet (mapSet m k v) kt = mapGet m kt := by
  induction m with
  | nil =>
    unfold mapSet
    simp only [List.find?_nil, Option.isSome_none]
    rw [if_neg (by simp), List.nil_append, mapGet_cons]
    simp [hne]
  | cons a t ih =>
    by_cases ha : (a.1 == k) = true
    · have ha₁ : a.1 = k := by simpa using ha
      rw [mapSet_cons_eq a t k v ha, mapGet_cons, mapGet_cons]
      have hak : (a.1 == kt) = false := by rw [ha₁]; exact hne
      simp only [hne, hak, Bool.false_eq_true, if_neg]
      exact mapGet_map_upd_ne t k kt v hne
    · have ha₂ : (a.1 == k) = false := by simpa using ha
      rw [mapSet_cons_ne a t k v ha₂, mapGet_cons, mapGet_cons]
      by_cases hat : (a.1 == kt) = true
      · simp only [hat, if_pos]
      · have hat₂ : (a.1 == kt) = false := by simpa using hat
        simp only [hat₂, Bool.false_eq_true, if_neg]
        exact ih

/-- C9: canonicalize is idempotent — for every value x,
canonicalize (canonicalize x) = canonicalize x — and order-independent on
mappings: two mappings with the same key-value pairs in different
insertion orders canonicalize to the same result. -/
theorem claim_canonicalize_idempotent_order_independent :
    (∀ v : Json, canonicalize (canonicalize v) = canonicalize v) ∧
    (∀ l₁ l₂ : List (String × Json), l₁.Perm l₂ → (l₁.map Prod.fst).Nodup →
      canonicalize (.obj l₁) = canonicalize (.obj l₂)) :=
  ⟨canonicalize_idem, canonicalize_obj_perm⟩

/-- Witness for C9 at the spec's concrete example:
Canon(\x7ba:1,b:2\x7d) = Canon(\x7bb:2,a:1\x7d). -/
theorem claim_canonicalize_idempotent_order_independent_witness :
    canonicalize (.obj [("a", .num 1), ("b", .num 2)]) =
      canonicalize (.obj [("b", .num 2), ("a", .num 1)]) :=
  claim_canonicalize_idempotent_order_independent.2 _ _
    (List.Perm.swap _ _ _) (by decide)

/-- C10 counterexample: the claim says verifySignature returns a boolean
for every non-null public-key string, but on the empty string (a non-null
string, falsy in JavaScript) the guard throws
`Public key not provided` to the caller instead. -/
theorem claim_verifySignature_empty_key_raises :
    verifySignature (fun _ _ _ => .ok true) "payload" "sig" (some "") =
      .error "Public key not provided" := rfl

/-- C10 amended: verifySignature is total when a NON-EMPTY public-key
string is provided: for every payload, signature and non-empty key
(malformed PEM keys and malformed base64 signatures included, i.e. for
every behaviour of the underlying crypto library), it returns a boolean —
false on any verification error — and never raises to the caller. -/
theorem claim_verifySignature_total
    (cryptoVerify : String → String → String → Except String Bool)
    (data signature k : String) (h : k ≠ "") :
    ∃ b : Bool, verifySignature cryptoVerify data signature (some k) = .ok b := by
  unfold verifySignature
  simp only [Option.getD_some]
  rw [if_neg h]
  cases cryptoVerify data signature k with
  | ok b => exact ⟨b, rfl⟩
  | error e => exact ⟨false, rfl⟩

/-- Witness for the amended C10 at a malformed key and failing library
call. -/
theorem claim_verifySignature_total_witness :
    ∃ b : Bool, verifySignature (fun _ _ _ => .error "bad PEM")
      "payload" "sig" (some "not a key") = .ok b :=
  claim_verifySignature_total _ "payload" "sig" "not a key" (by decide)

theorem mem_of_mapGet {α : Type} {m : List (String × α)} {k : String} {v : α}
    (h : mapGet m k = some v) : (k, v) ∈ m := by
  unfold mapGet at h
  cases hf : m.find? (fun p => p.1 == k) with
  | none => rw [hf] at h; simp at h
  | some q =>
    rw [hf] at h
    simp at h
    have hq := List.find?_some hf
    have hqm : q ∈ m := List.mem_of_find?_eq_some hf
    have hqkv : q = (k, v) := by
      obtain ⟨q₁, q₂⟩ := q
      have hk : q₁ = k := by simpa using hq
      have hv : q₂ = v := by simpa using h
      rw [hk, hv]
    rw [hqkv] at hqm
    exact hqm

/-- Evaluation of validateSession when presented with the session's
current token: the session slides, and the token rotates exactly when
the token age reaches the refresh threshold. -/
theorem validateSession_current_token
    (st : SessionManagerState) (sid : String) (s : Session) (now : Nat)
    (hjv : jwtVerify st s.token = some sid)
    (hs : mapGet st.sessions sid = some s)
    (hexp : ¬ now > s.expiresAt)
    (hiss : s.tokenIssuedAt ≠ 0) :
    validateSession st s.token now =
      if now - s.tokenIssuedAt ≥ computeRefreshThreshold st.config then
        (some { s with
                 lastActivity := now
                 expiresAt := now + orDefault st.config.sessionTimeout 3600000
                 token := st.nextToken
                 tokenIssuedAt := now
                 latestToken := st.nextToken },
         { st with
           sessions := mapSet (mapSet (mapSet st.sessions sid
               { s with
                 lastActivity := now
                 expiresAt := now + orDefault st.config.sessionTimeout 3600000 }) sid
               { s with
                 lastActivity := now
                 expiresAt := now + orDefault st.config.sessionTimeout 3600000
                 token := st.nextToken
                 tokenIssuedAt := now
                 latestToken := st.nextToken }) sid
               { s with
                 lastActivity := now
                 expiresAt := now + orDefault st.config.sessionTimeout 3600000
                 token := st.nextToken
                 tokenIssuedAt := now
                 latestToken := st.nextToken }
           tokenClaims := (st.nextToken, sid) :: st.tokenClaims
           nextToken := st.nextToken + 1 })
      else
        (some { s with
                 lastActivity := now
                 expiresAt := now + orDefault st.config.sessionTimeout 3600000
                 latestToken := s.token },
         { st with
           sessions := mapSet (mapSet st.sessions sid
             { s with
               lastActivity := now
               expiresAt := now + orDefault st.config.sessionTimeout 3600000 }) sid
             { s with
               lastActivity := now
               expiresAt := now + orDefault st.config.sessionTimeout 3600000
               latestToken := s.token } }) := by
  simp only [validateSession, hjv, hs]
  rw [if_neg hexp, if_neg (by simp)]
  simp only [generateJwt]
  rw [if_pos hiss]
  by_cases hrot : now - s.tokenIssuedAt ≥ computeRefreshThreshold st.config
  · rw [if_pos hrot, if_pos hrot]
  · rw [if_neg hrot, if_neg hrot]

/-- A token whose claims resolve but that differs from the session's
currently stored token never validates. -/
theorem validateSession_wrong_token (st : SessionManagerState) (t now : Nat)
    (sid : String) (s : Session)
    (hjv : jwtVerify st t = some sid) (hs : mapGet st.sessions sid = some s)
    (hneq : s.token ≠ t) : (validateSession st t now).1 = none := by
  simp only [validateSession, hjv, hs]
  by_cases hexp : now > s.expiresAt
  · rw [if_pos hexp]
  · rw [if_neg hexp, if_pos hneq]

/-- Prepending a claim for a different token leaves jwtVerify unchanged. -/
theorem jwtVerify_push (st₁ st₂ : SessionManagerState) (t n : Nat) (sid₂ : String)
    (hclaims : st₁.tokenClaims = (n, sid₂) :: st₂.tokenClaims)
    (hne : (n == t) = false) : jwtVerify st₁ t = jwtVerify st₂ t := by
  unfold jwtVerify
  rw [hclaims, List.find?_cons]
  simp only [hne]

/-- C5: applyRateLimiting follows the claimed algorithm exactly.
(1) If now < backoffUntil the command is rejected with the remaining
back-off seconds (rounded up) and the state is untouched.
(2) If now is past the window reset, the window rolls: the counter
clears, the window restarts, and penaltyLevel decrements with floor 0
(so the call behaves exactly as on the rolled state).
(3) Otherwise the counter is incremented; if it exceeds
maxCommandsPerMinute, penaltyLevel is raised, backoffUntil becomes
now + min(60 s, 2^penaltyLevel s) with the raised level, the counter and
window are reset, and the command is rejected; else it is admitted.
(4) Successive violations back off 2 s, 4 s, 8 s, ..., capped at 60 s
(from penalty level 5 onwards). -/
theorem claim_rate_limiting_algorithm :
    (∀ maxC now rl b, rl.backoffUntil = some b → now < b →
      applyRateLimiting maxC now rl =
        (⟨false, some s!"Rate limit backoff in effect. Try again in {(b - now + 999) / 1000}s"⟩,
         rl)) ∧
    (∀ maxC now rl, backoffActive now rl = false → now > rl.resetTime →
      applyRateLimiting maxC now rl =
        applyRateLimiting maxC now ⟨0, now + 60000, rl.penaltyLevel - 1, rl.backoffUntil⟩) ∧
    (∀ maxC now rl, backoffActive now rl = false → ¬ now > rl.resetTime →
      (rl.count + 1 > maxC →
        applyRateLimiting maxC now rl =
          (⟨false, some s!"Rate limit exceeded. Cooling down for {min 60 (2 ^ (rl.penaltyLevel + 1))}s"⟩,
           ⟨0, now + 60000, rl.penaltyLevel + 1,
            some (now + min 60 (2 ^ (rl.penaltyLevel + 1)) * 1000)⟩)) ∧
      (¬ rl.count + 1 > maxC →
        applyRateLimiting maxC now rl =
          (⟨true, none⟩, ⟨rl.count + 1, rl.resetTime, rl.penaltyLevel, none⟩))) ∧
    (∀ maxC now,
      (applyRateLimiting maxC now ⟨maxC, now + 60000, 0, none⟩).2.backoffUntil
          = some (now + 2000) ∧
      (applyRateLimiting maxC now ⟨maxC, now + 60000, 1, none⟩).2.backoffUntil
          = some (now + 4000) ∧
      (applyRateLimiting maxC now ⟨maxC, now + 60000, 2, none⟩).2.backoffUntil
          = some (now + 8000) ∧
      ∀ p, 5 ≤ p →
        (applyRateLimiting maxC now ⟨maxC, now + 60000, p, none⟩).2.backoffUntil
          = some (now + 60000)) := by
  refine ⟨?_, ?_, ?_, ?_⟩
  · intro maxC now rl b hb hlt
    unfold applyRateLimiting
    rw [if_pos (by simp [backoffActive, hb, hlt])]
    simp [hb]
  · intro maxC now rl hba hroll
    simp only [applyRateLimiting]
    have hba₂ : backoffActive now ⟨0, now + 60000, rl.penaltyLevel - 1, rl.backoffUntil⟩
        = false := by simpa [backoffActive] using hba
    rw [if_neg (by simp [hba])]
    conv_rhs => rw [if_neg (by simp [hba₂])]
    rw [if_pos hroll]
    conv_rhs => rw [if_neg (show ¬ now > now + 60000 by omega)]
  · intro maxC now rl hba hroll
    constructor
    · intro hviol
      simp only [applyRateLimiting]
      rw [if_neg (by simp [hba]), if_neg hroll, if_pos hviol]
    · intro hok
      simp only [applyRateLimiting]
      rw [if_neg (by simp [hba]), if_neg hroll, if_neg hok]
  · intro maxC now
    have h₁ : ¬ now > now + 60000 := by omega
    have h₂ : maxC + 1 > maxC := by omega
    refine ⟨?_, ?_, ?_, ?_⟩
    · simp [applyRateLimiting, backoffActive, h₁, h₂]
    · simp [applyRateLimiting, backoffActive, h₁, h₂]
    · simp [applyRateLimiting, backoffActive, h₁, h₂]
    · intro p hp
      have hcap : min 60 (2 ^ (p + 1)) = 60 := by
        have h64 : (64 : Nat) ≤ 2 ^ (p + 1) := by
          calc (64 : Nat) = 2 ^ 6 := by norm_num
          _ ≤ 2 ^ (p + 1) := Nat.pow_le_pow_right (by norm_num) (by omega)
        omega
      simp [applyRateLimiting, backoffActive, h₁, h₂, hcap]

/-- Witness for C5: a command arriving 4 s before the end of an active
back-off is rejected with a 4 s wait and the state is unchanged. -/
theorem claim_rate_limiting_algorithm_witness :
    applyRateLimiting 100 1000 ⟨0, 60000, 0, some 5000⟩ =
      (⟨false, some "Rate limit backoff in effect. Try again in 4s"⟩,
       ⟨0, 60000, 0, some 5000⟩) :=
  claim_rate_limiting_algorithm.1 100 1000 ⟨0, 60000, 0, some 5000⟩ 5000 rfl (by decide)

/-- C3 counterexample: the claim computes the replay fingerprint over the
CANONICALIZED payload data, but validateCommand hashes
`commandId + JSON.stringify(commandData)` with no canonicalization
(session.js line 181).  Two commands with the same id and identical
payload mappings in different insertion orders are therefore BOTH
admitted (the second is not rejected as a replay), although the two
payloads canonicalize identically.  The abstract hash is instantiated
with an injective function, as SHA-256 is on these two distinct
fingerprint inputs. -/
theorem claim_replay_canonical_fingerprint_counterexample :
    canonicalize (.obj [("a", .num 1), ("b", .num 2)]) =
        canonicalize (.obj [("b", .num 2), ("a", .num 1)]) ∧
    (validateCommand (fun s => s) replayDemoManager "s1" "c1"
        (.obj [("a", .num 1), ("b", .num 2)]) 1000).1 = ⟨true, none⟩ ∧
    (validateCommand (fun s => s)
        (validateCommand (fun s => s) replayDemoManager "s1" "c1"
          (.obj [("a", .num 1), ("b", .num 2)]) 1000).2 "s1" "c1"
        (.obj [("b", .num 2), ("a", .num 1)]) 1200).1 = ⟨true, none⟩ := by
  refine ⟨?_, rfl, rfl⟩
  simp +decide [canonicalize_obj, canonicalize_num, List.insertionSort, List.orderedInsert,
    keyLE, String.le_iff_toList_le]

/-- C3 amended: the replay fingerprint is SHA-256 over the command id
concatenated with the order-sensitive JSON serialization of the payload
data (no canonicalization).  For two commands in the same session with
equal ids and payloads that serialize identically, when the session is
live and rate limiting admits both calls, the first is admitted and the
second is rejected as a replay (the branch that also writes the
`replay_attack_detected` audit entry). -/
theorem claim_replay_exactly_once
    (hashData : String → String) (st : SessionManagerState) (sid cid : String)
    (data : Json) (now₁ now₂ : Nat) (s : Session)
    (hs : mapGet st.sessions sid = some s)
    (hexp₁ : ¬ now₁ > s.expiresAt)
    (hrl₁ : (applyRateLimiting (orDefault st.config.maxCommandsPerMinute 100) now₁
        s.rateLimit).1.allowed = true)
    (hfresh : s.executedCommands.contains (hashData (cid ++ stringify data)) = false)
    (hexp₂ : ¬ now₂ > s.expiresAt)
    (hrl₂ : (applyRateLimiting (orDefault st.config.maxCommandsPerMinute 100) now₂
        (applyRateLimiting (orDefault st.config.maxCommandsPerMinute 100) now₁
          s.rateLimit).2).1.allowed = true) :
    (validateCommand hashData st sid cid data now₁).1 = ⟨true, none⟩ ∧
    (validateCommand hashData (validateCommand hashData st sid cid data now₁).2
        sid cid data now₂).1 = ⟨false, some "Replay detected"⟩ := by
  have hfirst :
      validateCommand hashData st sid cid data now₁ = (⟨true, none⟩,
        { st with
          sessions := mapSet
            (mapSet st.sessions sid
              { s with rateLimit := (applyRateLimiting
                  (orDefault st.config.maxCommandsPerMinute 100) now₁ s.rateLimit).2 })
            sid
            { s with
              rateLimit := (applyRateLimiting
                (orDefault st.config.maxCommandsPerMinute 100) now₁ s.rateLimit).2,
              executedCommands := s.executedCommands
                ++ [hashData (cid ++ stringify data)],
              commandCount := s.commandCount + 1 },
          commandHistory := mapSet st.commandHistory sid
            (if ((mapGet st.commandHistory sid).getD []
                  ++ [(cid, now₁, jsonTypeTag data)]).length > 100
             then ((mapGet st.commandHistory sid).getD []
                  ++ [(cid, now₁, jsonTypeTag data)]).tail
             else (mapGet st.commandHistory sid).getD []
                  ++ [(cid, now₁, jsonTypeTag data)]) }) := by
    simp only [validateCommand, getSession, hs]
    rw [if_neg hexp₁]
    simp [hrl₁, hfresh]
    simpa using hfresh
  constructor
  · rw [hfirst]
  · rw [hfirst]
    simp only [validateCommand, getSession, mapGet_mapSet_self]
    rw [if_neg hexp₂]
    simp [hrl₂]

/-- Witness for the amended C3 on the concrete demo state. -/
theorem claim_replay_exactly_once_witness :
    (validateCommand (fun s => s) replayDemoManager "s1" "c1"
        (.obj [("a", .num 1)]) 1000).1 = ⟨true, none⟩ ∧
    (validateCommand (fun s => s)
        (validateCommand (fun s => s) replayDemoManager "s1" "c1"
          (.obj [("a", .num 1)]) 1000).2 "s1" "c1"
        (.obj [("a", .num 1)]) 1200).1 = ⟨false, some "Replay detected"⟩ :=
  claim_replay_exactly_once (fun s => s) replayDemoManager "s1" "c1"
    (.obj [("a", .num 1)]) 1000 1200 replayDemoSession rfl (by decide) (by decide)
    (by decide) (by decide) (by decide)

/-- A successful validateSession keeps the session id and requires the
presented token to equal the stored one. -/
theorem validateSession_success (st : SessionManagerState) (t now : Nat)
    (sid₂ : String) (u s₂ : Session) (hjv : jwtVerify st t = some sid₂)
    (hsg : mapGet st.sessions sid₂ = some u)
    (hres : (validateSession st t now).1 = some s₂) :
    s₂.id = u.id ∧ u.token = t := by
  simp only [validateSession, hjv, hsg] at hres
  by_cases hexp : now > u.expiresAt
  · rw [if_pos hexp] at hres
    simp at hres
  · rw [if_neg hexp] at hres
    by_cases hmis : u.token ≠ t
    · rw [if_pos hmis] at hres
      simp at hres
    · rw [if_neg hmis] at hres
      push_neg at hmis
      refine ⟨?_, hmis⟩
      by_cases hrot : now - (if u.tokenIssuedAt ≠ 0 then u.tokenIssuedAt else u.createdAt)
          ≥ computeRefreshThreshold st.config
      · rw [if_pos hrot] at hres
        simp only [Option.some_inj] at hres
        rw [← hres]
      · rw [if_neg hrot] at hres
        simp only [Option.some_inj] at hres
        rw [← hres]

/-- C4: token validation rotates the bearer token exactly when
now - tokenIssuedAt ≥ min(sessionTimeout/2, 15 minutes); after a
rotation the previously issued token no longer validates (presenting it
yields nothing, at any later instant); and at every instant at most one
token validates for a given session (any token accepted on behalf of the
session is the session's currently stored token). -/
theorem claim_token_rotation :
    (∀ cfg, computeRefreshThreshold cfg
        = min (orDefault cfg.sessionTimeout 3600000 / 2) (15 * 60 * 1000)) ∧
    (∀ st sid s now, WFManager st → mapGet st.sessions sid = some s →
      s.tokenIssuedAt ≠ 0 → ¬ now > s.expiresAt →
      (now - s.tokenIssuedAt < computeRefreshThreshold st.config →
        ((validateSession st s.token now).1.map (fun x => x.token)) = some s.token) ∧
      (now - s.tokenIssuedAt ≥ computeRefreshThreshold st.config →
        ((validateSession st s.token now).1.map (fun x => x.token)) = some st.nextToken ∧
        s.token ≠ st.nextToken ∧
        ∀ now₂, (validateSession (validateSession st s.token now).2 s.token now₂).1
          = none)) ∧
    (∀ st sid s now t s₂, WFManager st → mapGet st.sessions sid = some s →
      (validateSession st t now).1 = some s₂ → s₂.id = sid → t = s.token) := by
  refine ⟨fun cfg => rfl, ?_, ?_⟩
  · intro st sid s now hwf hs hiss hexp
    obtain ⟨htok', hjv', hid'⟩ := hwf _ (mem_of_mapGet hs)
    have htok : s.token < st.nextToken := htok'
    have hjv : jwtVerify st s.token = some sid := hjv'
    have heval := validateSession_current_token st sid s now hjv hs hexp hiss
    constructor
    · intro hno
      rw [heval, if_neg (by omega)]
      simp
    · intro hyes
      rw [heval, if_pos hyes]
      refine ⟨by simp, by omega, ?_⟩
      intro now₂
      refine validateSession_wrong_token _ _ _ sid _ ?_ (mapGet_mapSet_self _ _ _) ?_
      · rw [jwtVerify_push _ st s.token st.nextToken sid rfl
          (by simp only [beq_eq_false_iff_ne]; omega)]
        exact hjv
      · show st.nextToken ≠ s.token
        omega
  · intro st sid s now t s₂ hwf hs hres hid₂
    cases hjv : jwtVerify st t with
    | none => simp [validateSession, hjv] at hres
    | some sidt =>
      cases hsg : mapGet st.sessions sidt with
      | none => simp [validateSession, hjv, hsg] at hres
      | some u =>
        obtain ⟨hsid, htoku⟩ := validateSession_success st t now sidt u s₂ hjv hsg hres
        obtain ⟨_, _, hidu'⟩ := hwf _ (mem_of_mapGet hsg)
        have hidu : u.id = sidt := hidu'
        have hss : sidt = sid := by
          rw [← hidu, ← hsid]
          exact hid₂
        rw [hss] at hsg
        rw [hs] at hsg
        simp only [Option.some_inj] at hsg
        rw [hsg]
        exact htoku.symm

/-- Witness for C4 on the concrete rotation demo: at time 901000 the
token age is 900000 ≥ the 900000 ms threshold, so token 0 is replaced by
token 1, and presenting token 0 afterwards validates nothing. -/
theorem claim_token_rotation_witness :
    ((validateSession rotationDemoManager 0 901000).1.map (fun x => x.token)) = some 1 ∧
    (validateSession (validateSession rotationDemoManager 0 901000).2 0 905000).1
      = none := by
  have h := (claim_token_rotation.2.1 rotationDemoManager "sid1" rotationDemoSession
    901000 (by decide) rfl (by decide) (by decide)).2 (by decide)
  exact ⟨h.1, h.2.2 905000⟩

theorem mapGet_mapDel_self {α : Type} (m : List (String × α)) (k : String) :
    mapGet (mapDel m k) k = none := by
  unfold mapGet mapDel
  have hf : (m.filter (fun p => !(p.1 == k))).find? (fun p => p.1 == k) = none := by
    rw [List.find?_eq_none]
    intro x hx
    have hq := (List.mem_filter.mp hx).2
    simp at hq ⊢
    exact hq
  rw [hf]
  rfl

theorem mapGet_filter_none {α : Type} (m : List (String × α)) (k : String)
    (q : String × α → Bool) (h : mapGet m k = none) :
    mapGet (m.filter q) k = none := by
  unfold mapGet at h ⊢
  have hnone : m.find? (fun p => p.1 == k) = none := by
    cases hf : m.find? (fun p => p.1 == k) with
    | none => rfl
    | some x => rw [hf] at h; simp at h
  rw [List.find?_eq_none] at hnone
  have hres : (m.filter q).find? (fun p => p.1 == k) = none := by
    rw [List.find?_eq_none]
    intro x hx
    exact hnone x (List.mem_of_mem_filter hx)
  rw [hres]
  rfl

/-- C7: pairing redemption succeeds exactly when the code is present
(after the opportunistic sweep), unused, unexpired, and the presented
client public key is non-empty; on success the code is removed, so any
second redemption attempt returns nothing; and every failure path
returns the same value (`none` — the HTTP layer turns it into the
uniform `Invalid or expired pairing code` answer, disclosing nothing
about which clause failed). -/
theorem claim_pairing_redeemed_at_most_once :
    (∀ m code k now d, mapGet (cleanupExpiredCodes m now) code = some d →
      d.used = false → ¬ now > d.expiresAt → k ≠ "" →
      validatePairingCode m code k now =
        (some { appName := d.appName, appUrl := d.appUrl, clientPublicKey := k,
                bridgePublicKey := d.bridgePublicKey },
         mapDel (cleanupExpiredCodes m now) code)) ∧
    (∀ m code k now, ((validatePairingCode m code k now).1).isSome = true ↔
      ∃ d, mapGet (cleanupExpiredCodes m now) code = some d ∧
        d.used = false ∧ ¬ now > d.expiresAt ∧ k ≠ "") ∧
    (∀ m code k₁ k₂ now₁ now₂ r m₂,
      validatePairingCode m code k₁ now₁ = (some r, m₂) →
      (validatePairingCode m₂ code k₂ now₂).1 = none) := by
  refine ⟨?_, ?_, ?_⟩
  · intro m code k now d hg hused hexp hk
    simp only [validatePairingCode, hg]
    rw [if_neg (by simp [hused]), if_neg hexp, if_neg hk]
  · intro m code k now
    constructor
    · intro hsome
      cases hg : mapGet (cleanupExpiredCodes m now) code with
      | none => simp [validatePairingCode, hg] at hsome
      | some d =>
        by_cases hused : d.used
        · simp [validatePairingCode, hg, hused] at hsome
        · by_cases hexp : now > d.expiresAt
          · simp [validatePairingCode, hg, hused, hexp] at hsome
          · by_cases hk : k = ""
            · simp [validatePairingCode, hg, hused, hexp, hk] at hsome
            · exact ⟨d, rfl, by simpa using hused, hexp, hk⟩
    · rintro ⟨d, hg, hused, hexp, hk⟩
      simp [validatePairingCode, hg, hused, hexp, hk]
  · intro m code k₁ k₂ now₁ now₂ r m₂ h
    have hm₂ : m₂ = mapDel (cleanupExpiredCodes m now₁) code := by
      cases hg : mapGet (cleanupExpiredCodes m now₁) code with
      | none => simp [validatePairingCode, hg] at h
      | some d =>
        by_cases hused : d.used
        · simp [validatePairingCode, hg, hused] at h
        · by_cases hexp : now₁ > d.expiresAt
          · simp [validatePairingCode, hg, hused, hexp] at h
          · by_cases hk : k₁ = ""
            · simp [validatePairingCode, hg, hused, hexp, hk] at h
            · simp only [validatePairingCode, hg] at h
              rw [if_neg (by simp [hused]), if_neg hexp, if_neg hk] at h
              exact (Prod.mk.injEq _ _ _ _ |>.mp h).2.symm
    have habsent : mapGet (cleanupExpiredCodes m₂ now₂) code = none := by
      rw [hm₂]
      unfold cleanupExpiredCodes
      exact mapGet_filter_none _ _ _ (mapGet_mapDel_self _ _)
    simp [validatePairingCode, habsent]

/-- Witness for C7: the demo code redeems once with the presented key
and a second attempt observes absence. -/
theorem claim_pairing_redeemed_at_most_once_witness :
    validatePairingCode [("A1B2-C3D4-E5F6", pairingDemoCode)] "A1B2-C3D4-E5F6" "pk" 1000 =
      (some { appName := "X", appUrl := "https://x.test", clientPublicKey := "pk",
              bridgePublicKey := "bpk" },
       mapDel (cleanupExpiredCodes [("A1B2-C3D4-E5F6", pairingDemoCode)] 1000)
         "A1B2-C3D4-E5F6") ∧
    (validatePairingCode
        (validatePairingCode [("A1B2-C3D4-E5F6", pairingDemoCode)]
          "A1B2-C3D4-E5F6" "pk" 1000).2
        "A1B2-C3D4-E5F6" "pk" 2000).1 = none := by
  constructor
  · exact claim_pairing_redeemed_at_most_once.1 _ _ _ _ pairingDemoCode rfl rfl
      (by decide) (by decide)
  · exact claim_pairing_redeemed_at_most_once.2.2
      [("A1B2-C3D4-E5F6", pairingDemoCode)] "A1B2-C3D4-E5F6" "pk" "pk" 1000 2000
      { appName := "X", appUrl := "https://x.test", clientPublicKey := "pk",
        bridgePublicKey := "bpk" }
      (validatePairingCode [("A1B2-C3D4-E5F6", pairingDemoCode)]
        "A1B2-C3D4-E5F6" "pk" 1000).2
      rfl

theorem mem_mapSet {α : Type} {m : List (String × α)} {k : String} {v : α}
    {x : String × α} (hx : x ∈ mapSet m k v) : x ∈ m ∨ x = (k, v) := by
  unfold mapSet at hx
  by_cases h : (m.find? (fun p => p.1 == k)).isSome
  · rw [if_pos h] at hx
    obtain ⟨y, hy, hxy⟩ := List.mem_map.mp hx
    by_cases hk : (y.1 == k) = true
    · right
      rw [← hxy, if_pos hk]
    · left
      rw [← hxy, if_neg hk]
      exact hy
  · rw [if_neg h] at hx
    rcases List.mem_append.mp hx with h₁ | h₁
    · exact Or.inl h₁
    · right
      simpa using h₁

theorem mem_mapDel {α : Type} {m : List (String × α)} {k : String}
    {x : String × α} (hx : x ∈ mapDel m k) : x ∈ m :=
  List.mem_of_mem_filter hx

/-- C1 counterexample: a plan owned by session-A is approved on behalf
of (unrelated) session-B: the operation succeeds and the plan becomes
approved, instead of rejecting as the claim states. -/
theorem claim_approve_ownership_counterexample :
    ownershipDemoPlan.sessionId = some "session-A" ∧
    "session-A" ≠ "session-B" ∧
    handleApprovePlan "session-B" [("p1", ownershipDemoPlan)] "p1" 5 =
      .ok ({ ownershipDemoPlan with approved := true, approvedAt := some 5 },
           [("p1", { ownershipDemoPlan with approved := true, approvedAt := some 5 })]) :=
  ⟨rfl, by decide, rfl⟩

/-- C1 amended: approve-plan never consults the caller's session — its
result is identical for any two callers — and it rejects exactly when
the plan is missing (`Plan not found`) or already executed
(`Plan already executed`); otherwise it transitions any plan, whatever
session owns it, to approved. -/
theorem claim_approve_plan_checks :
    (∀ caller₁ caller₂ plans planId now,
      handleApprovePlan caller₁ plans planId now
        = handleApprovePlan caller₂ plans planId now) ∧
    (∀ plans planId now, mapGet plans planId = none →
      approvePlan plans planId now = .error "Plan not found") ∧
    (∀ plans planId now p, mapGet plans planId = some p → p.executed = true →
      approvePlan plans planId now = .error "Plan already executed") ∧
    (∀ plans planId now p, mapGet plans planId = some p → p.executed = false →
      approvePlan plans planId now =
        .ok ({ p with approved := true, approvedAt := some now },
             mapSet plans planId { p with approved := true, approvedAt := some now })) := by
  refine ⟨fun caller₁ caller₂ plans planId now => rfl, ?_, ?_, ?_⟩
  · intro plans planId now hg
    simp [approvePlan, hg]
  · intro plans planId now p hg hex
    simp [approvePlan, hg, hex]
  · intro plans planId now p hg hex
    simp only [approvePlan, hg]
    rw [if_neg (by simp [hex])]

/-- Witness for the amended C1: the demo plan, not executed, is approved
regardless of ownership. -/
theorem claim_approve_plan_checks_witness :
    approvePlan [("p1", ownershipDemoPlan)] "p1" 5 =
      .ok ({ ownershipDemoPlan with approved := true, approvedAt := some 5 },
           mapSet [("p1", ownershipDemoPlan)] "p1"
             { ownershipDemoPlan with approved := true, approvedAt := some 5 }) :=
  claim_approve_plan_checks.2.2.2 [("p1", ownershipDemoPlan)] "p1" 5
    ownershipDemoPlan rfl rfl

theorem approvePlan_ok {plans : List (String × Plan)} {planId : String} {now : Nat}
    {p : Plan} {plans₂ : List (String × Plan)}
    (h : approvePlan plans planId now = .ok (p, plans₂)) :
    ∃ p₀, mapGet plans planId = some p₀ ∧ p₀.executed = false ∧
      p = { p₀ with approved := true, approvedAt := some now } ∧
      plans₂ = mapSet plans planId p := by
  cases hg : mapGet plans planId with
  | none => simp [approvePlan, hg] at h
  | some p₀ =>
    by_cases hex : p₀.executed = true
    · simp [approvePlan, hg, hex] at h
    · simp only [approvePlan, hg] at h
      rw [if_neg hex] at h
      simp only [Except.ok.injEq, Prod.mk.injEq] at h
      refine ⟨p₀, rfl, by simpa using hex, h.1.symm, ?_⟩
      rw [← h.2, h.1]

theorem executePlanCheck_ok {plans : List (String × Plan)}
    {planId sessionId : String} {p : Plan}
    (h : executePlanCheck plans planId sessionId = .ok p) :
    mapGet plans planId = some p ∧ p.approved = true ∧ p.executed = false ∧
      (p.sessionId = none ∨ p.sessionId = some sessionId) := by
  cases hg : mapGet plans planId with
  | none => simp [executePlanCheck, hg] at h
  | some p₀ =>
    simp only [executePlanCheck, hg] at h
    by_cases hap : p₀.approved = false
    · rw [if_pos hap] at h
      simp at h
    · rw [if_neg hap] at h
      by_cases hex : p₀.executed = true
      · rw [if_pos hex] at h
        simp at h
      · rw [if_neg hex] at h
        by_cases howner : (match p₀.sessionId with
            | some owner => decide (owner ≠ sessionId)
            | none => false) = true
        · rw [if_pos howner] at h
          simp at h
        · rw [if_neg howner] at h
          simp only [Except.ok.injEq] at h
          subst h
          refine ⟨rfl, by revert hap; cases p₀.approved <;> simp,
            by simpa using hex, ?_⟩
          cases hso : p₀.sessionId with
          | none => exact Or.inl rfl
          | some owner =>
            right
            rw [hso] at howner
            simp at howner
            rw [howner]

/-- Each step of the plan/approve/execute machine preserves the
approval invariant. -/
theorem bridgeInv_step {s s₂ : BridgeState} (hs : BridgeStep s s₂)
    (hi : BridgeInv s) : BridgeInv s₂ := by
  obtain ⟨hplans, hexecs, hlog⟩ := hi
  cases hs with
  | createPlan planId sid prompt workdir agentName planText now hfresh =>
    refine ⟨?_, hexecs, hlog⟩
    intro q hq
    rcases mem_mapSet hq with hq₁ | hq₁
    · exact hplans q hq₁
    · subst hq₁
      refine ⟨⟨sid, rfl⟩, ?_⟩
      intro hap
      simp [newPlan] at hap
  | approve planId now p plans₂ h =>
    obtain ⟨p₀, hg, hex, hp, hpl⟩ := approvePlan_ok h
    refine ⟨?_, ?_, ?_⟩
    · intro q hq
      rw [hpl] at hq
      rcases mem_mapSet hq with hq₁ | hq₁
      · obtain ⟨hown, happ⟩ := hplans q hq₁
        exact ⟨hown, fun hap => List.mem_cons_of_mem _ (happ hap)⟩
      · subst hq₁
        obtain ⟨sid, hsid⟩ := (hplans _ (mem_of_mapGet hg)).1
        refine ⟨⟨sid, ?_⟩, ?_⟩
        · rw [hp]
          exact hsid
        · intro _
          exact List.mem_cons_self _ _
    · intro q hq
      exact List.mem_cons_of_mem _ (hexecs q hq)
    · intro q hq
      exact List.mem_cons_of_mem _ (hlog q hq)
  | execute planId sessionId execId p h =>
    obtain ⟨hg, hap, hex, hown⟩ := executePlanCheck_ok h
    refine ⟨hplans, ?_, hlog⟩
    intro q hq
    rcases mem_mapSet hq with hq₁ | hq₁
    · exact hexecs q hq₁
    · subst hq₁
      obtain ⟨⟨sid, hsid⟩, happ⟩ := hplans _ (mem_of_mapGet hg)
      have hownsome : p.sessionId = some sessionId := by
        rcases hown with h₁ | h₁
        · rw [h₁] at hsid
          simp at hsid
        · exact h₁
      have hmem := happ hap
      rw [hownsome] at hmem
      exact hmem
  | advance execId e st he hst =>
    refine ⟨hplans, ?_, hlog⟩
    intro q hq
    rcases mem_mapSet hq with hq₁ | hq₁
    · exact hexecs q hq₁
    · subst hq₁
      exact hexecs (execId, e) (mem_of_mapGet he)
  | complete execId e he =>
    refine ⟨?_, ?_, ?_⟩
    · intro q hq
      exact hplans q (mem_mapDel hq)
    · intro q hq
      rcases mem_mapSet hq with hq₁ | hq₁
      · exact hexecs q hq₁
      · subst hq₁
        exact hexecs (execId, e) (mem_of_mapGet he)
    · intro q hq
      rcases List.mem_cons.mp hq with hq₁ | hq₁
      · subst hq₁
        exact hexecs (execId, e) (mem_of_mapGet he)
      · exact hlog q hq₁
  | fail execId e he =>
    refine ⟨hplans, ?_, hlog⟩
    intro q hq
    rcases mem_mapSet hq with hq₁ | hq₁
    · exact hexecs q hq₁
    · subst hq₁
      exact hexecs (execId, e) (mem_of_mapGet he)
  | reject planId p h =>
    exact ⟨fun q hq => hplans q (mem_mapDel hq), hexecs, hlog⟩

/-- Every reachable state satisfies the approval invariant. -/
theorem bridgeInv_reachable {s : BridgeState} (h : BridgeReachable s) : BridgeInv s := by
  induction h with
  | init =>
    refine ⟨?_, ?_, ?_⟩ <;> intro q hq <;> simp at hq
  | step hr hs ih => exact bridgeInv_step hs ih

/-- C2: executePlan returns an execution only when the plan exists, is
approved, is not already executed, and is owned by the calling session
(handler-created plans always record an owner); otherwise it fails with
the corresponding error, in source order, and creates no execution.
Consequently, in every reachable state, every execution's plan was
approved earlier by that same session, and every plan that reached
EXECUTED was approved first. -/
theorem claim_execute_requires_approval :
    (∀ plans executions planId sessionId execId,
      (mapGet plans planId = none →
        executePlanOp plans executions planId sessionId execId
          = .error "Plan not found") ∧
      (∀ p, mapGet plans planId = some p → p.approved = false →
        executePlanOp plans executions planId sessionId execId
          = .error "Plan not approved") ∧
      (∀ p, mapGet plans planId = some p → p.approved = true → p.executed = true →
        executePlanOp plans executions planId sessionId execId
          = .error "Plan already executed") ∧
      (∀ p owner, mapGet plans planId = some p → p.approved = true →
        p.executed = false → p.sessionId = some owner → owner ≠ sessionId →
        executePlanOp plans executions planId sessionId execId
          = .error "Plan does not belong to this session") ∧
      (∀ p, mapGet plans planId = some p → p.approved = true → p.executed = false →
        p.sessionId = some sessionId →
        executePlanOp plans executions planId sessionId execId =
          .ok (⟨execId, planId, sessionId, .starting, 0⟩,
               mapSet executions execId ⟨execId, planId, sessionId, .starting, 0⟩))) ∧
    (∀ s, BridgeReachable s →
      (∀ q ∈ s.executions, (q.2.planId, some q.2.sessionId) ∈ s.approvalLog) ∧
      (∀ q ∈ s.executedLog, (q.1, some q.2) ∈ s.approvalLog)) := by
  constructor
  · intro plans executions planId sessionId execId
    refine ⟨?_, ?_, ?_, ?_, ?_⟩
    · intro hg
      simp [executePlanOp, executePlanCheck, hg]
    · intro p hg hap
      simp [executePlanOp, executePlanCheck, hg, hap]
    · intro p hg hap hex
      simp only [executePlanOp, executePlanCheck, hg]
      rw [if_neg (by simp [hap]), if_pos hex]
    · intro p owner hg hap hex hso hne
      simp only [executePlanOp, executePlanCheck, hg]
      rw [if_neg (by simp [hap]), if_neg (by simp [hex]),
        if_pos (by simp [hso, hne])]
    · intro p hg hap hex hso
      simp only [executePlanOp, executePlanCheck, hg]
      rw [if_neg (by simp [hap]), if_neg (by simp [hex]),
        if_neg (by simp [hso])]
  · intro s hr
    obtain ⟨_, hexecs, hlog⟩ := bridgeInv_reachable hr
    exact ⟨hexecs, hlog⟩

/-- Witness for C2 on the concrete create→approve→execute run: the
execution's plan has its approval by the same session logged. -/
theorem claim_execute_requires_approval_witness :
    (c2Exec.planId, some c2Exec.sessionId) ∈ c2StateFinal.approvalLog := by
  have h₁ : BridgeReachable ⟨[("p1", c2Plan₀)], [], [], []⟩ :=
    BridgeReachable.step BridgeReachable.init
      (BridgeStep.createPlan ⟨[], [], [], []⟩ "p1" "s1" "P" "/w" "agent" "T" 0 rfl)
  have h₂ : BridgeReachable ⟨[("p1", c2Plan₁)], [], [("p1", some "s1")], []⟩ :=
    BridgeReachable.step h₁
      (BridgeStep.approve ⟨[("p1", c2Plan₀)], [], [], []⟩ "p1" 5 c2Plan₁
        [("p1", c2Plan₁)] rfl)
  have hreach : BridgeReachable c2StateFinal :=
    BridgeReachable.step h₂
      (BridgeStep.execute ⟨[("p1", c2Plan₁)], [], [("p1", some "s1")], []⟩
        "p1" "s1" "e1" c2Plan₁ rfl)
  exact (claim_execute_requires_approval.2 c2StateFinal hreach).1
    ("e1", c2Exec) (by simp [c2StateFinal])

/-- Each queue event preserves the serialisation invariant. -/
theorem queueInv_step {s s₂ : QueueState} (hs : QStep s s₂) (hi : QueueInv s) :
    QueueInv s₂ := by
  obtain ⟨h₁, h₂, h₃⟩ := hi
  cases hs with
  | enqueue i hfresh =>
    have hnodup : (s.submitted ++ [i]).Nodup := by
      rw [List.nodup_append]
      refine ⟨h₃, List.nodup_singleton i, ?_⟩
      intro a ha hb
      rw [List.mem_singleton] at hb
      subst hb
      exact hfresh ha
    cases hqe : s.queue with
    | nil =>
      rw [hqe] at h₁ h₂
      simp at h₁ h₂
      refine ⟨?_, ?_, hnodup⟩
      · simp [hqe, h₁]
      · simp [hqe, h₂]
    | cons j t =>
      rw [hqe] at h₁ h₂
      refine ⟨?_, ?_, hnodup⟩
      · simp [hqe, h₁]
      · simp [hqe, h₂]
  | settle i rest hq =>
    rw [hq] at h₁ h₂
    cases rest with
    | nil =>
      refine ⟨?_, ?_, h₃⟩
      · simpa using h₁
      · simpa using h₂
    | cons j t =>
      refine ⟨?_, ?_, h₃⟩
      · simp [h₁]
      · simpa using h₂

/-- Every reachable queue state satisfies the invariant. -/
theorem queueInv_reachable {s : QueueState} (h : QReachable s) : QueueInv s := by
  induction h with
  | init => exact ⟨rfl, rfl, List.nodup_nil⟩
  | step hr hs ih => exact queueInv_step hs ih

/-- C8: per-session executions are serialised.  In every reachable queue
state, the entries whose run began are exactly the settled ones followed
by the current queue head (so at most one execution is active — in
STARTING/RUNNING — at any instant, and each run begins only after the
previous one settled), runs begin in submission (FIFO) order (`started`
is a prefix of `submitted`), and the active count is at most one. -/
theorem claim_per_session_serialisation :
    ∀ s, QReachable s →
      s.started = s.finished ++ (match s.queue with | [] => [] | i :: _ => [i]) ∧
      s.submitted = s.finished ++ s.queue ∧
      s.started <+: s.submitted ∧
      (s.started.filter (fun i => !(s.finished.contains i))).length ≤ 1 := by
  intro s hr
  obtain ⟨h₁, h₂, h₃⟩ := queueInv_reachable hr
  refine ⟨h₁, h₂, ?_, ?_⟩
  · rw [h₁, h₂]
    rw [List.prefix_append_right_inj]
    cases hqe : s.queue with
    | nil => simp
    | cons j t => exact ⟨t, rfl⟩
  · rw [h₁, List.filter_append]
    have hfin : s.finished.filter (fun i => !(s.finished.contains i)) = [] := by
      rw [List.filter_eq_nil_iff]
      intro a ha
      simp [ha]
    rw [hfin]
    simp only [List.nil_append]
    calc ((match s.queue with | [] => [] | i :: _ => [i]).filter
            (fun i => !(s.finished.contains i))).length
        ≤ (match s.queue with | [] => ([] : List Nat) | i :: _ => [i]).length :=
          List.length_filter_le _ _
      _ ≤ 1 := by cases s.queue <;> simp

/-- The queue state after enqueue 1, enqueue 2, settle 1: entry 2 is the
single active execution. -/
def c8State : QueueState := ⟨[2], [1, 2], [1], [1, 2]⟩

/-- Witness for C8 on a concrete two-entry run. -/
theorem claim_per_session_serialisation_witness :
    c8State.started <+: c8State.submitted ∧
    (c8State.started.filter (fun i => !(c8State.finished.contains i))).length ≤ 1 := by
  have h₁ : QReachable ⟨[1], [1], [], [1]⟩ :=
    QReachable.step QReachable.init (QStep.enqueue ⟨[], [], [], []⟩ 1 (by simp))
  have h₂ : QReachable ⟨[1, 2], [1], [], [1, 2]⟩ :=
    QReachable.step h₁ (QStep.enqueue ⟨[1], [1], [], [1]⟩ 2 (by decide))
  have hreach : QReachable c8State :=
    QReachable.step h₂ (QStep.settle ⟨[1, 2], [1], [], [1, 2]⟩ 1 [2] rfl)
  obtain ⟨_, _, hpre, hcount⟩ := claim_per_session_serialisation c8State hreach
  exact ⟨hpre, hcount⟩

/-- C6 counterexample: an unauthenticated, unsigned health-check message
is REJECTED with `Not authenticated` by the connection-level signature
routine (its session check precedes the no-signature shortcut), not
answered as the claim states. -/
theorem claim_health_check_unauthenticated_counterexample :
    wsProcessMessage (fun _ _ _ => true) (fun _ => none) none
      ⟨MsgType.healthCheck, none, "2024-01-01T00:00:00Z", none, none, none, none⟩
      = .rejected "Not authenticated" := rfl

/-- C6 amended: a signature is required for every message type except
health-check; the dispatcher requires a session for every type except
pair, authenticate and health-check; but the connection-level signature
routine also requires an active session for every type except pair and
authenticate, so an unauthenticated health-check is rejected
(`Not authenticated`), while an unsigned health-check on an
authenticated connection passes both gates and is answered. -/
theorem claim_health_check_gates :
    (∀ verify resolveToken clientSession (msg : WsMessage),
      msg.signature = none → msg.type ≠ MsgType.healthCheck →
      verifyClientSignature verify resolveToken clientSession msg
        = ⟨false, some "Missing signature"⟩) ∧
    (∀ t, requiresSession t = true ↔
      (t ≠ MsgType.pair ∧ t ≠ MsgType.authenticate ∧ t ≠ MsgType.healthCheck)) ∧
    (∀ verify resolveToken (msg : WsMessage),
      msg.type ≠ MsgType.pair → msg.type ≠ MsgType.authenticate →
      (verifyClientSignature verify resolveToken none msg).valid = false) ∧
    (∀ verify resolveToken sess (msg : WsMessage),
      msg.type = MsgType.healthCheck →
      wsProcessMessage verify resolveToken (some sess) msg = .dispatched) := by
  refine ⟨?_, ?_, ?_, ?_⟩
  · intro verify resolveToken clientSession msg hsig hne
    unfold verifyClientSignature
    rw [if_pos ⟨hsig, hne⟩]
  · intro t
    cases t <;> simp [requiresSession]
  · intro verify resolveToken msg hpair hauth
    unfold verifyClientSignature
    by_cases hsig : msg.signature = none ∧ msg.type ≠ MsgType.healthCheck
    · rw [if_pos hsig]
    · rw [if_neg hsig, if_neg hpair, if_neg hauth]
  · intro verify resolveToken sess msg hhc
    simp [wsProcessMessage, verifyClientSignature, finishSignatureCheck,
      requiresSession, hhc]

/-- Witness for the amended C6: an unsigned health-check on an
authenticated connection is dispatched. -/
theorem claim_health_check_gates_witness :
    wsProcessMessage (fun _ _ _ => false) (fun _ => none) (some ⟨"pk"⟩)
      ⟨MsgType.healthCheck, none, "2024-01-01T00:00:00Z", none, none, none, none⟩
      = .dispatched :=
  claim_health_check_gates.2.2.2 (fun _ _ _ => false) (fun _ => none) ⟨"pk"⟩
    ⟨MsgType.healthCheck, none, "2024-01-01T00:00:00Z", none, none, none, none⟩ rfl

end PromptDock
